import Mathlib

/-!
Verification of the directory-scoped route composition and rendering pipeline
of `packages/sonik/src/server/server.ts`.

The development shallowly embeds the server module: pure data is translated to
inductive types, the asynchronous pipeline is modelled synchronously (awaiting a
promise is transparent in a sequential model), and the stateful registration of
handlers on the external router is modelled by explicit state passing that
produces a defunctionalized router value (`Hono`), together with a first-match
dispatch semantics for that router.

External collaborators (per §6 of the specification) that are not part of the
translated module are modelled at their interface boundary:
 - the Directory Indexer (`groupByDirectory` / `listByDirectory` of
   `utils/file.js`, outside `src/`) is represented by its outputs, which are
   taken as inputs (`routesMap`, `layoutList`, `preservedMap`);
 - the filename-to-URL-path mapping (`filePathToPath`) is taken as a function
   parameter;
 - the base HTTP router (Hono) is modelled by a defunctionalized entry list with
   first-match dispatch, prefix mounting, catch-all paths, and error/not-found
   interceptors;
 - the render context class (`Head` of `head.js`, outside `src/`) is modelled by
   an allocation identifier: its metadata content is irrelevant here, only its
   identity (which allocation produced it) matters.
-/

namespace Sonik

/-- An HTTP response value (the `Response` web primitive): status, headers and
body.  Modelled from the spec: a response object carrying a body string, a
status code and a header list. -/
structure Response where
  body : String
  status : Nat
  headers : List (String × String)
deriving DecidableEq, Repr

/-- Modelled from the spec: the render context (`Head` of `head.js`, which is
not under `src/`).  Its document-metadata content never influences the claims;
what matters is object identity, modelled by the allocation identifier `id`:
two `Head` values are the same object exactly when they carry the same `id`. -/
structure Head where
  id : Nat
deriving DecidableEq, Repr

/-- A request: HTTP method, path, and the rest of the request data (query
string etc.), which the router never inspects but which distinguishes
otherwise-identical requests. -/
structure Req where
  method : String
  path : String
  query : String
deriving DecidableEq, Repr

/-- A thrown JavaScript error value (opaque to the server module). -/
abbrev Err : Type := String

/-- Content produced by components and layouts.  `text` covers both plain
strings and text nodes; `el` is an element wrapping a child node (layout
wrapping never needs more structure than a single-child element). -/
inductive Node where
  | text : String → Node
  | el : String → Node → Node
deriving DecidableEq, Repr

/-- The resolved value of a handler: either renderable content
(`string | Node`, after awaiting) or an already-constructed `Response`
(`res instanceof Response`). -/
inductive ResValue where
  | content : Node → ResValue
  | response : Response → ResValue
deriving Repr

/-- The props object passed to a layout: `{ children, head, filename }`. -/
structure LayoutProps where
  children : Node
  head : Head
  filename : String

/-- `LayoutHandler`: a layout render function. -/
def LayoutHandler : Type := LayoutProps → Node

/-- `LayoutFile = { default: LayoutHandler }`. -/
structure LayoutFile where
  default : LayoutHandler

/-- `FC`: a function component, invoked as `routeDefault(c, { head })`.  It may
throw (modelled by `Except`). -/
def FC : Type := Req → Head → Except Err ResValue

/-- `Handler`: a per-method handler, invoked as `handler(c, { head, next })`
(the `next` continuation is never used by the module itself). -/
def Handler : Type := Req → Head → Except Err ResValue

/-- `NotFoundHandler`: invoked as `notFoundHandler(c, { head })`. -/
def NotFoundHandler : Type := Req → Head → ResValue

/-- `ErrorHandler`: invoked as `errorHandler(c, { error, head })`. -/
def ErrorHandler : Type := Req → Err → Head → ResValue

/-- `ToWebOptions = { head, layouts?, filename }`.  `layouts = none` models the
JavaScript property being absent/undefined. -/
structure ToWebOptions where
  head : Head
  layouts : Option (List String)
  filename : String

/-- The environment captured by the `createApp` closure and consumed by
`toWebResponse`: the loaded layout registry `LAYOUTS`, the route tree `root`,
and the markup serializer `render = options.renderToString`. -/
structure Env where
  LAYOUTS : List (String × LayoutFile)
  root : String
  render : Node → String

/-- `addDocType`: prefix the document preamble. -/
def addDocType (html : String) : String :=
  "<!doctype html>" ++ html

/-- `returnHtml`: build a response with the markup content-type header. -/
def returnHtml (html : String) (status : Nat) : Response :=
  ⟨html, status, [("Content-Type", "text/html; charset=utf-8")]⟩

/-- JavaScript's `String.prototype.split` on the single-character separator
`/`, at the character-list level: an empty string yields one empty segment,
and every separator occurrence starts a new segment. -/
def splitChars : List Char → List (List Char)
  | [] => [[]]
  | c :: cs =>
    if c = '/' then [] :: splitChars cs
    else
      match splitChars cs with
      | [] => [[c]]
      | h :: t => (c :: h) :: t

/-- `path.split('/')`. -/
def splitSlash (s : String) : List String :=
  (splitChars s.data).map String.mk

/-- Prefix test on character lists (`isPrefixOf` at the list level, written
structurally). -/
def isPrefixChars : List Char → List Char → Bool
  | [], _ => true
  | _ :: _, [] => false
  | a :: as, b :: bs => a == b && isPrefixChars as bs

/-- `p` is a prefix of `s` (string level). -/
def strStarts (p s : String) : Bool :=
  isPrefixChars p.data s.data

/-- Drop the first `n` characters of a string (string slicing at the
character-list level). -/
def strDrop (s : String) (n : Nat) : String :=
  String.mk (s.data.drop n)

/-- The number of path segments of a path string, as computed by the source's
comparator (`path.split('/').length`). -/
def segCount (s : String) : Nat :=
  (splitSlash s).length

/-- The ordering relation realized by the source's layout sort
`(a, b) => b.split('/').length - a.split('/').length`: `a` precedes `b` when
`b` has at most as many segments (descending segment count). -/
def segGE (a b : String) : Prop :=
  segCount b ≤ segCount a

instance : DecidableRel segGE := fun a b => Nat.decLe _ _

instance : IsTotal String segGE :=
  ⟨fun a b => (Nat.le_total (segCount b) (segCount a)).imp id id⟩

instance : IsTrans String segGE :=
  ⟨fun _ _ _ h1 h2 => Nat.le_trans h2 h1⟩

/-- `layouts.sort((a, b) => b.split('/').length - a.split('/').length)`:
JavaScript's `Array.prototype.sort` is a stable sort, so with this comparator
the result is the stable descending-by-segment-count ordering, which is what
insertion sort with `segGE` computes. -/
def sortLayoutsDesc (ls : List String) : List String :=
  List.insertionSort segGE ls

/-- The layout-application loop of `toWebResponse`: fold the working value
through each layout path in order, looking each path up in `LAYOUTS` and
skipping paths with no registered layout. -/
def applyChain (env : Env) (ls : List String) (head : Head) (filename : String)
    (n : Node) : Node :=
  ls.foldl
    (fun acc path =>
      match env.LAYOUTS.lookup path with
      | some layout => layout.default ⟨acc, head, filename⟩
      | none => acc)
    n

/-- The default branch of `toWebResponse` when no (non-empty) explicit layout
chain is supplied: wrap once with the root `_layout.tsx` if it exists
(prefixing the preamble), otherwise serialize the working value unwrapped. -/
def defaultWrap (env : Env) (n : Node) (status : Nat) (opts : ToWebOptions) :
    Response :=
  match env.LAYOUTS.lookup (env.root ++ "/_layout.tsx") with
  | some defaultLayout =>
      returnHtml
        (addDocType (env.render (defaultLayout.default ⟨n, opts.head, opts.filename⟩)))
        status
  | none => returnHtml (env.render n) status

/-- `toWebResponse`: the Rendering Composer.  A resolved `Response` is returned
unchanged; otherwise a supplied non-empty layout chain is sorted deepest-first
and folded over the working value before serialization with the document
preamble; with no chain the default branch applies. -/
def toWebResponse (env : Env) (res : ResValue) (status : Nat)
    (opts : ToWebOptions) : Response :=
  match res with
  | .response r => r
  | .content n =>
    match opts.layouts with
    | some layouts =>
      if layouts.length ≠ 0 then
        let sorted := sortLayoutsDesc layouts
        returnHtml (addDocType (env.render (applyChain env sorted opts.head opts.filename n)))
          status
      else defaultWrap env n status opts
    | none => defaultWrap env n status opts

/-- The truncation walk of `getLayoutPaths`, written structurally on the
reversed segment list: popping the last segment of `paths` is taking the tail
of `paths.reverse`.  On a lookup miss the walk retries on the tail while
segments remain (`if (paths.length) getLayoutPaths(paths)`). -/
def getLayoutPathsAux (layoutList : List (String × List String)) :
    List String → Option (List String)
  | [] =>
    match layoutList.lookup (String.intercalate "/" ([] : List String)) with
    | some ls => some ls
    | none => none
  | r :: rs =>
    match layoutList.lookup (String.intercalate "/" ((r :: rs).reverse)) with
    | some ls => some ls
    | none =>
      match rs with
      | [] => none
      | _ :: _ => getLayoutPathsAux layoutList rs

/-- `getLayoutPaths`: look up the joined path in the layout index; on a miss,
drop the last segment (`paths.pop()`) and retry while segments remain,
otherwise resolve to nothing. -/
def getLayoutPaths (layoutList : List (String × List String))
    (paths : List String) : Option (List String) :=
  getLayoutPathsAux layoutList paths.reverse

/-- The reversed-list form of the descending prefix list. -/
def prefixesDescAux : List String → List (List String)
  | [] => []
  | r :: rs => (r :: rs).reverse :: prefixesDescAux rs

/-- The directory prefixes tried by the truncation walk, longest first:
the full segment list, then with the last segment dropped, and so on, stopping
before the empty list. -/
def prefixesDesc (paths : List String) : List (List String) :=
  prefixesDescAux paths.reverse

/-- The per-directory layout resolution of `createApp`
(`let layouts = layoutList[dir]; if (!layouts) getLayoutPaths(dir.split('/'))`). -/
def resolveLayouts (layoutList : List (String × List String)) (dir : String) :
    Option (List String) :=
  match layoutList.lookup dir with
  | some ls => some ls
  | none => getLayoutPaths layoutList (splitSlash dir)

/-- A directory-scoped error interceptor, as installed by `subApp.onError`
(or `app.onError` for the root): the defunctionalized closure
`(error, c) => toWebResponse(errorHandler(c, { error, head }), 500, opts)`. -/
structure ErrorBoundary where
  handler : ErrorHandler
  head : Head
  opts : ToWebOptions

/-- A process-wide not-found handler, as installed by `app.notFound`: the
defunctionalized closure
`(c) => toWebResponse(notFoundHandler(c, { head }), 404, opts)`. -/
structure NotFoundBoundary where
  handler : NotFoundHandler
  head : Head
  opts : ToWebOptions

/-- The body of a registered route handler, defunctionalized so the captured
`head` and options remain observable.  `component` is the closure registered
for a function component, `onMethod` the one registered by the method-map
loop, `catchAllNotFound` the directory not-found catch-all, and `custom` an
arbitrary handler registered by user code through an `APP` entry. -/
inductive RouteAction where
  | component : FC → RouteAction
  | onMethod : Handler → RouteAction
  | catchAllNotFound : NotFoundHandler → RouteAction
  | custom : (Req → Except Err Response) → RouteAction

/-- A registration on a sub-router, in registration order.  Modelled from the
spec: the external base router abstraction (§6) records, per registration, a
method/path handler (`handler`, carrying the captured head, composer options
and status), a mounted opaque sub-application (`mountedApp`, an export with a
`fetch` capability), or a bare `use(path)` middleware registration (a no-op
for dispatch when given no middleware function). -/
inductive InstEntry where
  | handler : String → String → RouteAction → Head → ToWebOptions → Nat → InstEntry
  | mountedApp : String → (Req → Option Response) → InstEntry
  | use : String → InstEntry

/-- A registration on the outermost router.  The module only ever registers
sub-router mounts there (`app.route(rootPath, subApp)`); per the mounting
contract a mount snapshots the sub-router's registrations at mount time
together with its current error interceptor (the mounting router re-registers
the sub-router's routes wrapped with its error handler). -/
inductive MountEntry where
  | mount : String → List InstEntry → Option ErrorBoundary → MountEntry

/-- A router value: its registrations in order, its error interceptor and its
process-wide not-found handler. -/
structure Hono where
  entries : List MountEntry
  errorH : Option ErrorBoundary
  notFoundH : Option NotFoundBoundary

/-- The `APP` entry of a method map: user code receiving the sub-router under
construction (after `subApp.use(path)`) together with `{ head, render }`, whose
install-time effect is the list of registrations it performs. -/
def AppHandler : Type :=
  Head → (ResValue → Nat → Response) → List InstEntry

/-- A value stored under a key of a method-map default export: absent/falsy
(skipped by the loop), a request handler (under an HTTP method name), or an
app handler (under the reserved key `APP`). -/
inductive RDEntry where
  | h : Handler → RDEntry
  | appH : AppHandler → RDEntry

/-- The default export of a route file, described structurally the way the
installer probes it: `fetch` is present exactly when `'fetch' in routeDefault`
(a mounted sub-application, probed first), `callable` is present exactly when
`typeof routeDefault === 'function'`, and `entries` are the key/value pairs
seen by `Object.entries(routeDefault)` in object order (`none` values model
falsy members, which the loop skips). -/
structure RouteDefault where
  fetch : Option (Req → Option Response)
  callable : Option FC
  entries : List (String × Option RDEntry)

/-- The preserved files of one directory, keyed by filename in the source
(`content[NOTFOUND_FILENAME]`, `content[ERROR_FILENAME]`): the not-found
catch-all and the error interceptor, each optional. -/
structure PreservedDir where
  notFound : Option NotFoundHandler
  error : Option ErrorHandler

/-- `NOTFOUND_FILENAME`. -/
def NOTFOUND_FILENAME : String := "_404.tsx"

/-- `ERROR_FILENAME`. -/
def ERROR_FILENAME : String := "_error.tsx"

/-- Head allocation: `options.createHead()` when a factory is supplied, else
`new Head(...)`.  Allocation is modelled by threading a counter (the next
fresh identifier); the default branch returns a fresh object and advances the
counter, while a caller factory receives and returns the allocator state. -/
def allocHead (createHead : Option (Nat → Head × Nat)) (next : Nat) :
    Head × Nat :=
  match createHead with
  | some f => f next
  | none => (⟨next⟩, next + 1)

/-- The method-map loop of the installer: for each `Object.entries` pair,
register the handler on the sub-router for its method and path, or, for the
reserved key `APP`, register `use(path)` and invoke the app handler at install
time with `{ head, render }`. -/
def methodEntries (env : Env) (path : String) (head : Head)
    (opts : ToWebOptions) (entries : List (String × Option RDEntry)) :
    List InstEntry :=
  entries.foldl
    (fun acc e =>
      acc ++
        match e with
        | (_, none) => []
        | (name, some (.appH a)) =>
          if name = "APP" then
            InstEntry.use path :: a head (fun v st => toWebResponse env v st opts)
          else []
        | (name, some (.h hh)) =>
          if name = "APP" then []
          else [.handler name path (.onMethod hh) head opts 200])
    []

/-- All registrations produced for one route file that is not a mounted
sub-application: the GET registration of a function component (when callable),
followed by the method-map registrations. -/
def routeEntriesFor (env : Env) (path : String) (head : Head)
    (opts : ToWebOptions) (rd : RouteDefault) : List InstEntry :=
  (match rd.callable with
   | some f => [InstEntry.handler "GET" path (.component f) head opts 200]
   | none => []) ++ methodEntries env path head opts rd.entries

/-- The preserved-file installation of one route-file iteration: when the
directory is not the root and exactly matches a preserved-index entry, the
directory's not-found handler becomes a `get('*', ...)` catch-all at status 404
and its error handler becomes the sub-router's error interceptor at status
500. -/
def preservedInstall (preservedMap : List (String × PreservedDir))
    (dir root : String) (head : Head) (opts : ToWebOptions) :
    List InstEntry × Option ErrorBoundary :=
  match preservedMap.lookup dir with
  | some content =>
    if dir ≠ root then
      ((match content.notFound with
        | some nf => [InstEntry.handler "GET" "*" (.catchAllNotFound nf) head opts 404]
        | none => []),
       (match content.error with
        | some eh => some ⟨eh, head, opts⟩
        | none => none))
    else ([], none)
  | none => ([], none)

/-- The installer state while processing one directory: the sub-router's
registrations and error interceptor, the parent router's registrations, and
the head-allocation counter. -/
structure InstallState where
  subEntries : List InstEntry
  subErrorH : Option ErrorBoundary
  appEntries : List MountEntry
  next : Nat

/-- The installer state between directories. -/
structure DirState where
  appEntries : List MountEntry
  next : Nat

/-- One iteration of the route-file loop (`for (filename, route) of content`):
skip a missing default export; mount an export with a `fetch` capability
verbatim and remount the sub-router on the parent; otherwise allocate the
render context, register the component and method-map handlers, install the
directory's preserved files, and remount the sub-router on the parent at the
directory's prefix. -/
def stepFile (env : Env) (preservedMap : List (String × PreservedDir))
    (createHead : Option (Nat → Head × Nat)) (filePathToPath : String → String)
    (dir rootPath : String) (layouts : Option (List String))
    (st : InstallState) (file : String × Option RouteDefault) : InstallState :=
  match file.2 with
  | none => st
  | some rd =>
    let path := filePathToPath file.1
    match rd.fetch with
    | some f =>
      let sub := st.subEntries ++ [InstEntry.mountedApp path f]
      { st with
          subEntries := sub,
          appEntries := st.appEntries ++ [.mount rootPath sub st.subErrorH] }
    | none =>
      let alloc := allocHead createHead st.next
      let head := alloc.1
      let opts : ToWebOptions := ⟨head, layouts, file.1⟩
      let rEntries := routeEntriesFor env path head opts rd
      let preserved := preservedInstall preservedMap dir env.root head opts
      let sub := st.subEntries ++ rEntries ++ preserved.1
      let errH := match preserved.2 with
        | some eb => some eb
        | none => st.subErrorH
      ⟨sub, errH, st.appEntries ++ [.mount rootPath sub errH], alloc.2⟩

/-- The directory-path prefix at which a directory's sub-router is mounted:
the directory path with the configured root prefix stripped
(`dir.replace(new RegExp('^' + root), '')`). -/
def rootPathOf (root dir : String) : String :=
  if strStarts root dir then strDrop dir root.length else dir

/-- One iteration of the directory loop: create a fresh sub-router, resolve
the directory's layout chain, and process every route file of the directory. -/
def stepDirectory (env : Env) (preservedMap : List (String × PreservedDir))
    (layoutList : List (String × List String))
    (createHead : Option (Nat → Head × Nat)) (filePathToPath : String → String)
    (st : DirState) (dirEntry : String × List (String × Option RouteDefault)) :
    DirState :=
  let dir := dirEntry.1
  let layouts := resolveLayouts layoutList dir
  let rootPath := rootPathOf env.root dir
  let final :=
    dirEntry.2.foldl
      (stepFile env preservedMap createHead filePathToPath dir rootPath layouts)
      ⟨[], none, st.appEntries, st.next⟩
  ⟨final.appEntries, final.next⟩

/-- The options record consumed by `createApp`.  The three indices are the
Directory Indexer's outputs (`groupByDirectory` / `listByDirectory` over the
corresponding registries), supplied directly; `filePathToPath` is the external
filename-to-URL-path mapping; `app` is an optional pre-existing router to
extend; `root` defaults to `/app/routes`. -/
structure ServerOptions where
  preservedMap : List (String × PreservedDir)
  layoutList : List (String × List String)
  routesMap : List (String × List (String × Option RouteDefault))
  LAYOUTS : List (String × LayoutFile)
  root : Option String
  render : Node → String
  filePathToPath : String → String
  createHead : Option (Nat → Head × Nat)
  app : Option Hono

/-- The composer environment determined by the options. -/
def ServerOptions.env (o : ServerOptions) : Env :=
  ⟨o.LAYOUTS, o.root.getD "/app/routes", o.render⟩

/-- `createApp`: process every directory of the route index, then, if the root
directory itself has preserved files, register them as the process-wide
not-found and error handlers of the outermost router (a final render context is
allocated for them regardless). -/
def createApp (o : ServerOptions) : Hono :=
  let env := o.env
  let init := o.app.getD ⟨[], none, none⟩
  let st :=
    o.routesMap.foldl
      (stepDirectory env o.preservedMap o.layoutList o.createHead o.filePathToPath)
      ⟨init.entries, 0⟩
  let head := (allocHead o.createHead st.next).1
  match o.preservedMap.lookup env.root with
  | some content =>
    let nfH := match content.notFound with
      | some nf => some (⟨nf, head, ⟨head, none, NOTFOUND_FILENAME⟩⟩ : NotFoundBoundary)
      | none => init.notFoundH
    let eH := match content.error with
      | some eh => some (⟨eh, head, ⟨head, none, ERROR_FILENAME⟩⟩ : ErrorBoundary)
      | none => init.errorH
    ⟨st.appEntries, eH, nfH⟩
  | none => ⟨st.appEntries, init.errorH, init.notFoundH⟩

/-- Modelled from the spec: the external router's path-pattern test at the
granularity the module uses it — the catch-all pattern `*` matches every path,
any other pattern matches exactly. -/
def pathMatches (pat p : String) : Bool :=
  pat == "*" || pat == p

/-- Modelled from the spec: the external router's prefix-mounting contract.
A mount at the empty or root prefix receives every path unchanged; otherwise
the prefix must be followed by a path boundary, and the mounted router sees the
remainder (the bare prefix itself maps to `/`). -/
def mountStrip (pre p : String) : Option String :=
  if pre = "" ∨ pre = "/" then some p
  else if strStarts pre p then
    let rest := strDrop p pre.length
    if rest = "" then some "/"
    else if strStarts "/" rest then some rest else none
  else none

/-- The request-time behavior of a registered handler: exactly the closure body
the installer registered — run the user function with the captured head, and
pipe renderable results through the Rendering Composer at the captured status
and options; a thrown error propagates. -/
def runAction (env : Env) (act : RouteAction) (head : Head)
    (opts : ToWebOptions) (status : Nat) (req : Req) :
    Except Err Response :=
  match act with
  | .component f => (f req head).map (fun v => toWebResponse env v status opts)
  | .onMethod h => (h req head).map (fun v => toWebResponse env v status opts)
  | .catchAllNotFound h => .ok (toWebResponse env (h req head) status opts)
  | .custom f => f req

/-- The request-time behavior of an error interceptor:
`toWebResponse(errorHandler(c, { error, head }), 500, opts)`. -/
def ErrorBoundary.run (env : Env) (eb : ErrorBoundary) (req : Req) (e : Err) :
    Response :=
  toWebResponse env (eb.handler req e eb.head) 500 eb.opts

/-- The request-time behavior of the process-wide not-found handler:
`toWebResponse(notFoundHandler(c, { head }), 404, opts)`. -/
def NotFoundBoundary.run (env : Env) (nb : NotFoundBoundary) (req : Req) :
    Response :=
  toWebResponse env (nb.handler req nb.head) 404 nb.opts

/-- Modelled from the spec: the external router's built-in response when no
route and no registered not-found handler matches. -/
def honoDefault404 : Response :=
  ⟨"404 Not Found", 404, [("Content-Type", "text/plain; charset=UTF-8")]⟩

/-- Modelled from the spec: the external router's built-in response for an
uncaught handler fault. -/
def honoDefaultError : Response :=
  ⟨"Internal Server Error", 500, [("Content-Type", "text/plain; charset=UTF-8")]⟩

/-- First-match dispatch over a sub-router's registration list.  `none` means
no registration matched (the caller falls through); a matched handler may
return a thrown error, which the mount's error interceptor may convert.  A
mounted sub-application is consulted under its stripped path and falls through
when it matches nothing. -/
def runEntries (env : Env) (req : Req) : List InstEntry → Option (Except Err Response)
  | [] => none
  | .handler m pat act head opts status :: rest =>
    if m == req.method && pathMatches pat req.path then
      some (runAction env act head opts status req)
    else runEntries env req rest
  | .mountedApp pre f :: rest =>
    (match mountStrip pre req.path with
     | some p =>
       match f { req with path := p } with
       | some r => some (.ok r)
       | none => runEntries env req rest
     | none => runEntries env req rest)
  | .use _ :: rest => runEntries env req rest

/-- First-match dispatch over the outermost router's mounts: a mount whose
prefix matches is consulted under the stripped path; a fault raised inside it
is converted by the mounted sub-router's error interceptor if it has one,
otherwise it propagates; a mount that matches nothing falls through. -/
def runMounts (env : Env) (req : Req) : List MountEntry → Option (Except Err Response)
  | [] => none
  | .mount pre sub errH :: rest =>
    (match mountStrip pre req.path with
     | some p =>
       match runEntries env { req with path := p } sub with
       | some (.ok r) => some (.ok r)
       | some (.error e) =>
         (match errH with
          | some eb => some (.ok (eb.run env { req with path := p } e))
          | none => some (.error e))
       | none => runMounts env req rest
     | none => runMounts env req rest)

/-- Full dispatch of a request against the assembled router: first-match over
the registrations, then the error interceptor for an uncaught fault, then the
process-wide not-found handler for a miss, then the router's built-in
defaults. -/
def dispatchApp (env : Env) (app : Hono) (req : Req) : Response :=
  match runMounts env req app.entries with
  | some (.ok r) => r
  | some (.error e) =>
    match app.errorH with
    | some eb => eb.run env req e
    | none => honoDefaultError
  | none =>
    match app.notFoundH with
    | some nb => nb.run env req
    | none => honoDefault404

/-- The observable shape of a registration, used to state registration-order
properties. -/
inductive EntryKind where
  | componentK
  | methodK
  | notFoundK
  | customK
  | mountedK
  | useK
deriving DecidableEq, Repr

/-- The shape of a registration. -/
def InstEntry.kindOf : InstEntry → EntryKind
  | .handler _ _ (.component _) _ _ _ => .componentK
  | .handler _ _ (.onMethod _) _ _ _ => .methodK
  | .handler _ _ (.catchAllNotFound _) _ _ _ => .notFoundK
  | .handler _ _ (.custom _) _ _ _ => .customK
  | .mountedApp _ _ => .mountedK
  | .use _ => .useK

/-- The prefix and sub-router registrations of a mount. -/
def MountEntry.subOf : MountEntry → String × List InstEntry
  | .mount pre es _ => (pre, es)

/-- The registrations of the last sub-router snapshot mounted on a router:
for a directory processed last, this is the directory's fully built sub-router
in registration order. -/
def lastMountEntries (h : Hono) : List InstEntry :=
  match h.entries.reverse with
  | [] => []
  | .mount _ es _ :: _ => es

/-- A filename-to-URL-path mapping for the schematic configurations: the
external collaborator is only consumed as a pure function, so the claims hold
for any choice; this one sends every index file to `/`. -/
def fppIndex : String → String := fun _ => "/"

/-- Schematic configuration for the preserved-handler claims: directory
`a` owns a route file and both preserved files, directory `c` owns a route
file and no preserved files, and the root directory owns both preserved files.
No layouts exist anywhere. -/
def cfgPreserved (rndr : Node → String) (nfA nfR : NotFoundHandler)
    (errA errR : ErrorHandler) (fcA fcC : FC) : ServerOptions :=
  ⟨[("/app/routes", ⟨some nfR, some errR⟩), ("/app/routes/a", ⟨some nfA, some errA⟩)],
   [],
   [("/app/routes/a", [("index.tsx", some ⟨none, some fcA, []⟩)]),
    ("/app/routes/c", [("index.tsx", some ⟨none, some fcC, []⟩)])],
   [], none, rndr, fppIndex, none, none⟩

/-- The composer environment of `cfgPreserved`. -/
def envPreserved (rndr : Node → String) : Env :=
  ⟨[], "/app/routes", rndr⟩

/-- Schematic configuration for the mounted-app claims: directory `a` owns a
layout (so an ancestor layout exists) and a single route file whose default
export has a `fetch` capability, mapped to the URL path `/sub`. -/
def cfgMounted (rndr : Node → String) (la : LayoutFile)
    (m : Req → Option Response) : ServerOptions :=
  ⟨[],
   [("/app/routes/a", ["/app/routes/a/_layout.tsx"])],
   [("/app/routes/a", [("sub.tsx", some ⟨some m, none, []⟩)])],
   [("/app/routes/a/_layout.tsx", la)], none, rndr, fun _ => "/sub", none, none⟩

/-- Schematic configuration for the method claims: directory `a` owns a single
function-component route file; no layouts, no preserved files. -/
def cfgComponent (rndr : Node → String) (fc : FC) : ServerOptions :=
  ⟨[], [],
   [("/app/routes/a", [("index.tsx", some ⟨none, some fc, []⟩)])],
   [], none, rndr, fppIndex, none, none⟩

/-- Schematic configuration for the render-context claims: directories `a` and
`b` each own a single function-component route file; no layouts, no preserved
files. -/
def cfgTwoComponents (rndr : Node → String) (fc1 fc2 : FC) : ServerOptions :=
  ⟨[], [],
   [("/app/routes/a", [("index.tsx", some ⟨none, some fc1, []⟩)]),
    ("/app/routes/b", [("index.tsx", some ⟨none, some fc2, []⟩)])],
   [], none, rndr, fppIndex, none, none⟩

/-- Schematic configuration for the registration-order claims: directory `a`
owns two route files (`a.tsx` before `b.tsx` in the index) and both preserved
files. -/
def cfgTwoFiles (rndr : Node → String) (fc1 fc2 : FC) (nf : NotFoundHandler)
    (eh : ErrorHandler) : ServerOptions :=
  ⟨[("/app/routes/a", ⟨some nf, some eh⟩)], [],
   [("/app/routes/a", [("a.tsx", some ⟨none, some fc1, []⟩),
                       ("b.tsx", some ⟨none, some fc2, []⟩)])],
   [], none, rndr, fun s => "/" ++ s, none, none⟩

/-- A concrete serializer for witnesses and counterexamples. -/
def renderDemo : Node → String
  | .text s => s
  | .el name child => "<" ++ name ++ ">" ++ renderDemo child ++ "</" ++ name ++ ">"

theorem defaultWrap_status (env : Env) (n : Node) (st : Nat)
    (opts : ToWebOptions) : (defaultWrap env n st opts).status = st := by
  unfold defaultWrap
  cases env.LAYOUTS.lookup (env.root ++ "/_layout.tsx") <;> rfl

theorem defaultWrap_headers (env : Env) (n : Node) (st : Nat)
    (opts : ToWebOptions) :
    (defaultWrap env n st opts).headers =
      [("Content-Type", "text/html; charset=utf-8")] := by
  unfold defaultWrap
  cases env.LAYOUTS.lookup (env.root ++ "/_layout.tsx") <;> rfl

theorem toWebResponse_content_status (env : Env) (n : Node) (st : Nat)
    (opts : ToWebOptions) :
    (toWebResponse env (.content n) st opts).status = st := by
  obtain ⟨hd, ly, fn⟩ := opts
  cases ly with
  | none => exact defaultWrap_status env n st ⟨hd, none, fn⟩
  | some ls =>
    by_cases h : ls.length = 0
    · simpa [toWebResponse, h] using defaultWrap_status env n st ⟨hd, some ls, fn⟩
    · simp [toWebResponse, h, returnHtml]

theorem toWebResponse_content_headers (env : Env) (n : Node) (st : Nat)
    (opts : ToWebOptions) :
    (toWebResponse env (.content n) st opts).headers =
      [("Content-Type", "text/html; charset=utf-8")] := by
  obtain ⟨hd, ly, fn⟩ := opts
  cases ly with
  | none => exact defaultWrap_headers env n st ⟨hd, none, fn⟩
  | some ls =>
    by_cases h : ls.length = 0
    · simpa [toWebResponse, h] using defaultWrap_headers env n st ⟨hd, some ls, fn⟩
    · simp [toWebResponse, h, returnHtml]

theorem sortLayoutsDesc_two (pa pb : String) (hseg : segCount pa < segCount pb) :
    sortLayoutsDesc [pa, pb] = [pb, pa] ∧ sortLayoutsDesc [pb, pa] = [pb, pa] := by
  have h1 : ¬ segGE pa pb := by
    simp only [segGE]
    omega
  have h2 : segGE pb pa := Nat.le_of_lt hseg
  constructor <;>
    simp [sortLayoutsDesc, List.insertionSort, List.orderedInsert, h1, h2]

/-- Claim C1: with a non-empty layout chain, the Rendering Composer sorts the
chain by descending segment count — a stable descending order (the sorted
output is a permutation, is pairwise descending, and preserves the relative
order of any input pair already in descending-or-tied order) — and folds the
working value through it, so that for a two-layout chain from nested
directories the deeper layout is applied first and the shallower layout is the
outermost wrapper, with the document preamble prefixed. -/
theorem c1_layout_chain_order (env : Env) (n : Node) (st : Nat) (hd : Head)
    (fn : String) (ls : List String) (pa pb : String) (la lb : LayoutFile)
    (hls : ls = [pa, pb] ∨ ls = [pb, pa])
    (hpa : env.LAYOUTS.lookup pa = some la)
    (hpb : env.LAYOUTS.lookup pb = some lb)
    (hseg : segCount pa < segCount pb) :
    toWebResponse env (.content n) st ⟨hd, some ls, fn⟩
        = returnHtml
            (addDocType (env.render (la.default ⟨lb.default ⟨n, hd, fn⟩, hd, fn⟩)))
            st
      ∧ (∀ ms : List String, (sortLayoutsDesc ms).Perm ms)
      ∧ (∀ ms : List String, List.Sorted segGE (sortLayoutsDesc ms))
      ∧ (∀ (ms : List String) (x y : String), segGE x y → [x, y].Sublist ms →
          [x, y].Sublist (sortLayoutsDesc ms))
      ∧ (∀ (ms : List String) (m : Node), ms ≠ [] →
          toWebResponse env (.content m) st ⟨hd, some ms, fn⟩
            = returnHtml
                (addDocType
                  (env.render (applyChain env (sortLayoutsDesc ms) hd fn m)))
                st) := by
  refine ⟨?_, fun ms => List.perm_insertionSort segGE ms,
    fun ms => List.sorted_insertionSort segGE ms,
    fun ms x y hxy hsub => List.pair_sublist_insertionSort hxy hsub,
    fun ms m hne => ?_⟩
  · have hsort := sortLayoutsDesc_two pa pb hseg
    rcases hls with rfl | rfl <;>
      simp [toWebResponse, hsort.1, hsort.2, applyChain, hpa, hpb]
  · have hlen : ms.length ≠ 0 := by
      simpa [List.length_eq_zero] using hne
    simp [toWebResponse, hlen]

/-- Witness for C1 at a concrete nested-directory configuration. -/
theorem c1_layout_chain_order_witness :
    toWebResponse
        ⟨[("/app/routes/a/_layout.tsx", ⟨fun p => .el "A" p.children⟩),
          ("/app/routes/a/b/_layout.tsx", ⟨fun p => .el "B" p.children⟩)],
         "/app/routes", renderDemo⟩
        (.content (.text "body")) 200
        ⟨⟨0⟩, some ["/app/routes/a/_layout.tsx", "/app/routes/a/b/_layout.tsx"], "f"⟩
      = ⟨"<!doctype html><A><B>body</B></A>", 200,
         [("Content-Type", "text/html; charset=utf-8")]⟩ := by
  have h :=
    (c1_layout_chain_order
      ⟨[("/app/routes/a/_layout.tsx", ⟨fun p => .el "A" p.children⟩),
        ("/app/routes/a/b/_layout.tsx", ⟨fun p => .el "B" p.children⟩)],
       "/app/routes", renderDemo⟩
      (.text "body") 200 ⟨0⟩ "f"
      ["/app/routes/a/_layout.tsx", "/app/routes/a/b/_layout.tsx"]
      "/app/routes/a/_layout.tsx" "/app/routes/a/b/_layout.tsx"
      ⟨fun p => .el "A" p.children⟩ ⟨fun p => .el "B" p.children⟩
      (Or.inl rfl) (by rfl) (by rfl) (by decide)).1
  simpa [returnHtml, addDocType, renderDemo] using h

theorem getLayoutPathsAux_eq_findSome (L : List (String × List String)) :
    ∀ rs : List String,
      getLayoutPathsAux L rs
        = (prefixesDescAux rs).findSome?
            (fun p => L.lookup (String.intercalate "/" p))
        ∨ rs = [] := by
  intro rs
  induction rs with
  | nil => exact Or.inr rfl
  | cons r rs ih =>
    refine Or.inl ?_
    simp only [getLayoutPathsAux, prefixesDescAux, List.findSome?]
    cases hl : L.lookup (String.intercalate "/" ((r :: rs).reverse)) with
    | some v => rfl
    | none =>
      cases rs with
      | nil => rfl
      | cons b bs =>
        rcases ih with h | h
        · exact h
        · exact absurd h (by simp)

theorem getLayoutPaths_eq_findSome (L : List (String × List String))
    (ps : List String) (hne : ps ≠ []) :
    getLayoutPaths L ps
      = (prefixesDesc ps).findSome?
          (fun p => L.lookup (String.intercalate "/" p)) := by
  rcases getLayoutPathsAux_eq_findSome L ps.reverse with h | h
  · exact h
  · exact absurd (by simpa using h) hne

/-- Claim C5: a directory with no layout-index entry of its own resolves its
layout chain by truncating its path segments one at a time, retrying the
lookup at each truncation, until a match is found or no segments remain
(equivalently, the first hit over the descending prefix list); and when no
layout applies at all (no chain resolved and no root layout), a content
result is serialized raw — the response body is exactly the serialization of
the working value, with no document preamble. -/
theorem c5_nearest_ancestor_layout (L : List (String × List String))
    (ps : List String) (dir : String) (env : Env) (n : Node) (st : Nat)
    (hd : Head) (fn : String)
    (hps : ps ≠ [])
    (hdir : L.lookup dir = none)
    (hroot : env.LAYOUTS.lookup (env.root ++ "/_layout.tsx") = none) :
    getLayoutPaths L ps
        = (prefixesDesc ps).findSome?
            (fun p => L.lookup (String.intercalate "/" p))
      ∧ resolveLayouts L dir = getLayoutPaths L (splitSlash dir)
      ∧ toWebResponse env (.content n) st ⟨hd, none, fn⟩
          = ⟨env.render n, st, [("Content-Type", "text/html; charset=utf-8")]⟩ := by
  refine ⟨getLayoutPaths_eq_findSome L ps hps, ?_, ?_⟩
  · simp [resolveLayouts, hdir]
  · simp [toWebResponse, defaultWrap, hroot, returnHtml]

/-- Witness for C5: with only a root-level layout registered, the walk from
`/app/routes/a/b` truncates twice and finds the root entry; a configuration
with no layouts at all renders raw content without a preamble. -/
theorem c5_nearest_ancestor_layout_witness :
    getLayoutPaths [("/app/routes", ["/app/routes/_layout.tsx"])]
        (splitSlash "/app/routes/a/b") = some ["/app/routes/_layout.tsx"]
      ∧ toWebResponse ⟨[], "/app/routes", renderDemo⟩ (.content (.text "raw"))
          200 ⟨⟨0⟩, none, "index.tsx"⟩
          = ⟨"raw", 200, [("Content-Type", "text/html; charset=utf-8")]⟩ := by
  have h :=
    c5_nearest_ancestor_layout [("/app/routes", ["/app/routes/_layout.tsx"])]
      (splitSlash "/app/routes/a/b") "/app/routes/a/b"
      ⟨[], "/app/routes", renderDemo⟩ (.text "raw") 200 ⟨0⟩ "index.tsx"
      (by decide) (by rfl) (by rfl)
  refine ⟨?_, ?_⟩
  · rw [h.1]
    decide
  · simpa [renderDemo] using h.2.2

/-- Claim C6: an input to the Rendering Composer that resolves to an
already-constructed `Response` is returned as that exact response — body,
status and headers untouched, with no layout application, no document
preamble, and the status and content-type defaults bypassed. -/
theorem c6_response_passthrough (env : Env) (r : Response) (st : Nat)
    (opts : ToWebOptions) :
    toWebResponse env (.response r) st opts = r
      ∧ (toWebResponse env (.response r) st opts).status = r.status
      ∧ (toWebResponse env (.response r) st opts).headers = r.headers
      ∧ (toWebResponse env (.response r) st opts).body = r.body :=
  ⟨rfl, rfl, rfl, rfl⟩

set_option maxHeartbeats 1000000 in
/-- Claim C8: every composed (non-passthrough) response carries the markup
content-type header and the status given by its call site: 200 for successful
component renders, 404 for a directory catch-all miss, and 500 for a handler
exception routed to an error interceptor. -/
theorem c8_wire_conventions (env : Env) (n nc : Node) (st : Nat)
    (opts : ToWebOptions) (rndr : Node → String) (nf2 : NotFoundHandler)
    (er2 : ErrorHandler) (fc2 : FC) (e : Err) (q : String) :
    (toWebResponse env (.content n) st opts).headers
        = [("Content-Type", "text/html; charset=utf-8")]
      ∧ (toWebResponse env (.content n) st opts).status = st
      ∧ dispatchApp (envPreserved rndr)
          (createApp (cfgPreserved rndr nf2 nf2 er2 er2
            (fun _ _ => .ok (.content nc)) fc2))
          ⟨"GET", "/a", q⟩
          = ⟨rndr nc, 200, [("Content-Type", "text/html; charset=utf-8")]⟩
      ∧ dispatchApp (envPreserved rndr)
          (createApp (cfgPreserved rndr (fun _ _ => .content nc) nf2 er2 er2
            (fun _ _ => .ok (.content nc)) fc2))
          ⟨"GET", "/a/zzz", q⟩
          = ⟨rndr nc, 404, [("Content-Type", "text/html; charset=utf-8")]⟩
      ∧ dispatchApp (envPreserved rndr)
          (createApp (cfgPreserved rndr nf2 nf2 (fun _ _ _ => .content nc) er2
            (fun _ _ => .error e) fc2))
          ⟨"GET", "/a", q⟩
          = ⟨rndr nc, 500, [("Content-Type", "text/html; charset=utf-8")]⟩ := by
  refine ⟨toWebResponse_content_headers env n st opts,
    toWebResponse_content_status env n st opts, ?_, ?_, ?_⟩ <;> rfl

set_option maxHeartbeats 1000000 in
/-- Claim C4: for a non-root directory exactly matching a preserved-index
entry, its not-found handler is a sub-router catch-all producing its rendering
at status 404 for unmatched paths under the directory, and its error handler
is the sub-router's error interceptor producing its rendering at status 500
for a handler fault; these take precedence over the root-level preserved
handlers, which are registered on the outermost router and fire only when no
directory-specific handler applies (a miss outside the directory, a fault in a
directory without its own interceptor, or a non-GET miss the GET catch-all
does not cover). -/
theorem c4_preserved_scoping (rndr : Node → String) (nfA nfR : NotFoundHandler)
    (errA errR : ErrorHandler) (fcA fcC : FC) (e : Err) (q : String) :
    dispatchApp (envPreserved rndr)
        (createApp (cfgPreserved rndr nfA nfR errA errR fcA fcC))
        ⟨"GET", "/a/zzz", q⟩
        = toWebResponse (envPreserved rndr) (nfA ⟨"GET", "/zzz", q⟩ ⟨0⟩) 404
            ⟨⟨0⟩, none, "index.tsx"⟩
      ∧ dispatchApp (envPreserved rndr)
          (createApp (cfgPreserved rndr nfA nfR errA errR
            (fun _ _ => .error e) fcC))
          ⟨"GET", "/a", q⟩
          = toWebResponse (envPreserved rndr) (errA ⟨"GET", "/", q⟩ e ⟨0⟩) 500
              ⟨⟨0⟩, none, "index.tsx"⟩
      ∧ dispatchApp (envPreserved rndr)
          (createApp (cfgPreserved rndr nfA nfR errA errR fcA fcC))
          ⟨"GET", "/b/x", q⟩
          = toWebResponse (envPreserved rndr) (nfR ⟨"GET", "/b/x", q⟩ ⟨2⟩) 404
              ⟨⟨2⟩, none, "_404.tsx"⟩
      ∧ dispatchApp (envPreserved rndr)
          (createApp (cfgPreserved rndr nfA nfR errA errR fcA
            (fun _ _ => .error e)))
          ⟨"GET", "/c", q⟩
          = toWebResponse (envPreserved rndr) (errR ⟨"GET", "/c", q⟩ e ⟨2⟩) 500
              ⟨⟨2⟩, none, "_error.tsx"⟩
      ∧ dispatchApp (envPreserved rndr)
          (createApp (cfgPreserved rndr nfA nfR errA errR fcA fcC))
          ⟨"POST", "/a/zzz", q⟩
          = toWebResponse (envPreserved rndr) (nfR ⟨"POST", "/a/zzz", q⟩ ⟨2⟩) 404
              ⟨⟨2⟩, none, "_404.tsx"⟩ :=
  ⟨rfl, rfl, rfl, rfl, rfl⟩

theorem dispatchApp_single (env : Env) (pre pat mth : String)
    (act : RouteAction) (hd : Head) (opts : ToWebOptions) (stt : Nat)
    (errH : Option ErrorBoundary) (req : Req) :
    dispatchApp env ⟨[.mount pre [.handler mth pat act hd opts stt] errH],
        none, none⟩ req
      = match mountStrip pre req.path with
        | some p =>
          if mth == req.method && pathMatches pat p then
            match runAction env act hd opts stt { req with path := p } with
            | .ok r => r
            | .error e =>
              match errH with
              | some eb => eb.run env { req with path := p } e
              | none => honoDefaultError
          else honoDefault404
        | none => honoDefault404 := by
  unfold dispatchApp runMounts runEntries
  cases mountStrip pre req.path with
  | none => rfl
  | some p =>
    by_cases hc : (mth == req.method && pathMatches pat p) = true
    · simp only [hc, if_true]
      cases runAction env act hd opts stt { req with path := p } with
      | ok r => rfl
      | error e => cases errH <;> rfl
    · simp only [eq_false_of_ne_true hc, if_false]
      rfl

/-- Claim C9: a route file classified as a function component is registered
for the GET method only; a request with any other method to the component's
path matches no registration from that route file and falls through to
not-found handling (here the router's built-in 404, since the configuration
registers no not-found handler), while a GET request reaches the component. -/
theorem c9_component_get_only (env : Env) (path : String) (hd : Head)
    (opts : ToWebOptions) (f : FC) (rndr : Node → String) (fc : FC)
    (m q : String) (hm : m ≠ "GET") :
    routeEntriesFor env path hd opts ⟨none, some f, []⟩
        = [.handler "GET" path (.component f) hd opts 200]
      ∧ dispatchApp ⟨[], "/app/routes", rndr⟩
          (createApp (cfgComponent rndr fc)) ⟨m, "/a", q⟩ = honoDefault404
      ∧ dispatchApp ⟨[], "/app/routes", rndr⟩
          (createApp (cfgComponent rndr fc)) ⟨"GET", "/a", q⟩
          = (match fc ⟨"GET", "/", q⟩ ⟨0⟩ with
             | .ok v =>
               toWebResponse ⟨[], "/app/routes", rndr⟩ v 200
                 ⟨⟨0⟩, none, "index.tsx"⟩
             | .error _ => honoDefaultError) := by
  have happ : createApp (cfgComponent rndr fc)
      = ⟨[.mount "/a"
            [.handler "GET" "/" (.component fc) ⟨0⟩ ⟨⟨0⟩, none, "index.tsx"⟩ 200]
            none], none, none⟩ := rfl
  have hb : ("GET" == m) = false := by
    simpa using fun hc => hm hc.symm
  refine ⟨rfl, ?_, ?_⟩
  · rw [happ, dispatchApp_single]
    have hstrip : mountStrip "/a" "/a" = some "/" := rfl
    rw [hstrip, hb]
    rfl
  · rw [happ, dispatchApp_single]
    have hstrip : mountStrip "/a" "/a" = some "/" := rfl
    rw [hstrip]
    cases hfc : fc ⟨"GET", "/", q⟩ ⟨0⟩ with
    | ok v => simp [runAction, pathMatches, hfc, Except.map]
    | error e => simp [runAction, pathMatches, hfc, Except.map]

/-- Witness for C9 at a concrete non-GET method. -/
theorem c9_component_get_only_witness :
    dispatchApp ⟨[], "/app/routes", renderDemo⟩
        (createApp (cfgComponent renderDemo
          (fun _ _ => .ok (.content (.text "hi")))))
        ⟨"POST", "/a", ""⟩ = honoDefault404 :=
  (c9_component_get_only ⟨[], "/app/routes", renderDemo⟩ "/" ⟨0⟩
    ⟨⟨0⟩, none, "f"⟩ (fun _ _ => .ok (.content (.text "hi"))) renderDemo
    (fun _ _ => .ok (.content (.text "hi"))) "POST" "" (by decide)).2.1

/-- Claim C7: a route file whose default export has a `fetch` capability is
mounted verbatim at its computed URL path on the directory's sub-router, which
is mounted at the directory's prefix on the parent router, and a response the
mounted application produces is returned exactly as it handed it over — no
layout wrapping, render-context injection or document preamble — even though
an ancestor layout exists for the directory. -/
theorem c7_mounted_app_verbatim (rndr : Node → String) (la : LayoutFile)
    (m : Req → Option Response) (mth q : String) (resp : Response)
    (hm : m ⟨mth, "/x", q⟩ = some resp) :
    createApp (cfgMounted rndr la m)
        = ⟨[.mount "/a" [.mountedApp "/sub" m] none], none, none⟩
      ∧ dispatchApp (cfgMounted rndr la m).env (createApp (cfgMounted rndr la m))
          ⟨mth, "/a/sub/x", q⟩ = resp := by
  have happ : createApp (cfgMounted rndr la m)
      = ⟨[.mount "/a" [.mountedApp "/sub" m] none], none, none⟩ := rfl
  refine ⟨happ, ?_⟩
  rw [happ]
  unfold dispatchApp
  simp only [runMounts, runEntries]
  rw [show mountStrip "/a" "/a/sub/x" = some "/sub/x" from rfl]
  simp only [runEntries]
  rw [show mountStrip "/sub" "/sub/x" = some "/x" from rfl]
  simp [hm]

/-- Witness for C7 with a concrete mounted application. -/
theorem c7_mounted_app_verbatim_witness :
    dispatchApp (cfgMounted renderDemo ⟨fun p => .el "L" p.children⟩
        (fun r => if r.path = "/x" then some ⟨"m", 201, []⟩ else none)).env
      (createApp (cfgMounted renderDemo ⟨fun p => .el "L" p.children⟩
        (fun r => if r.path = "/x" then some ⟨"m", 201, []⟩ else none)))
      ⟨"POST", "/a/sub/x", ""⟩ = ⟨"m", 201, []⟩ :=
  (c7_mounted_app_verbatim renderDemo ⟨fun p => .el "L" p.children⟩
    (fun r => if r.path = "/x" then some ⟨"m", 201, []⟩ else none)
    "POST" "" ⟨"m", 201, []⟩ (by rfl)).2

/-- Claim C10: classification is dispatch-capability first — a route file
whose default export has a `fetch` member is installed exclusively as a
mounted application, whatever else the export carries: the iteration adds
exactly the mounted-app registration to the sub-router and remounts the
sub-router on the parent, allocates no render context (the counter is
unchanged), invokes no `APP` entry, registers no component or method handler,
and installs no preserved files. -/
theorem c10_fetch_probe_first (env : Env)
    (pm : List (String × PreservedDir)) (ch : Option (Nat → Head × Nat))
    (fpp : String → String) (dir rootPath : String)
    (ly : Option (List String)) (st : InstallState) (fn : String)
    (f : Req → Option Response) (callable : Option FC)
    (entries : List (String × Option RDEntry)) :
    stepFile env pm ch fpp dir rootPath ly st (fn, some ⟨some f, callable, entries⟩)
      = ⟨st.subEntries ++ [.mountedApp (fpp fn) f],
         st.subErrorH,
         st.appEntries
           ++ [.mount rootPath (st.subEntries ++ [.mountedApp (fpp fn) f])
                 st.subErrorH],
         st.next⟩ := rfl

/-- The negation of claim C2, observed at concrete inputs: the configuration
installs a single component route in directory `a` whose component renders the
allocation identifier of the render context it receives, so the response body
reveals which `Head` object the handler was passed.  Two distinct requests to
that installed route both observe the context allocated at install time
(identifier 0): the render context is the same object across the two requests,
not freshly allocated per request. -/
theorem c2_fresh_context_counterexample :
    (⟨"GET", "/a", "q=1"⟩ : Req) ≠ ⟨"GET", "/a", "q=2"⟩
      ∧ dispatchApp ⟨[], "/app/routes", renderDemo⟩
          (createApp (cfgTwoComponents renderDemo
            (fun _ h => .ok (.content (.text (Nat.repr h.id))))
            (fun _ h => .ok (.content (.text (Nat.repr h.id))))))
          ⟨"GET", "/a", "q=1"⟩
          = dispatchApp ⟨[], "/app/routes", renderDemo⟩
              (createApp (cfgTwoComponents renderDemo
                (fun _ h => .ok (.content (.text (Nat.repr h.id))))
                (fun _ h => .ok (.content (.text (Nat.repr h.id))))))
              ⟨"GET", "/a", "q=2"⟩
      ∧ dispatchApp ⟨[], "/app/routes", renderDemo⟩
          (createApp (cfgTwoComponents renderDemo
            (fun _ h => .ok (.content (.text (Nat.repr h.id))))
            (fun _ h => .ok (.content (.text (Nat.repr h.id))))))
          ⟨"GET", "/a", "q=1"⟩
          = ⟨"0", 200, [("Content-Type", "text/html; charset=utf-8")]⟩ :=
  ⟨by decide, rfl, rfl⟩

/-- Claim C2 as amended: the render context is allocated once per installed
route file at installation time, not per request — the installed registration
of each route file carries one fixed `Head` (identifiers 0 and 1 for the two
route files, so distinct installs do get distinct contexts), and every request
dispatched to an installed route is handled with that route's install-time
context, whatever the request is. -/
theorem c2_context_per_installed_route (rndr : Node → String) (fc1 fc2 : FC)
    (q : String) :
    (createApp (cfgTwoComponents rndr fc1 fc2)).entries
        = [.mount "/a"
             [.handler "GET" "/" (.component fc1) ⟨0⟩
               ⟨⟨0⟩, none, "index.tsx"⟩ 200] none,
           .mount "/b"
             [.handler "GET" "/" (.component fc2) ⟨1⟩
               ⟨⟨1⟩, none, "index.tsx"⟩ 200] none]
      ∧ dispatchApp ⟨[], "/app/routes", rndr⟩
          (createApp (cfgTwoComponents rndr fc1 fc2)) ⟨"GET", "/a", q⟩
          = (match fc1 ⟨"GET", "/", q⟩ ⟨0⟩ with
             | .ok v =>
               toWebResponse ⟨[], "/app/routes", rndr⟩ v 200
                 ⟨⟨0⟩, none, "index.tsx"⟩
             | .error _ => honoDefaultError)
      ∧ dispatchApp ⟨[], "/app/routes", rndr⟩
          (createApp (cfgTwoComponents rndr fc1 fc2)) ⟨"GET", "/b", q⟩
          = (match fc2 ⟨"GET", "/", q⟩ ⟨1⟩ with
             | .ok v =>
               toWebResponse ⟨[], "/app/routes", rndr⟩ v 200
                 ⟨⟨1⟩, none, "index.tsx"⟩
             | .error _ => honoDefaultError) := by
  have happ : createApp (cfgTwoComponents rndr fc1 fc2)
      = ⟨[.mount "/a"
            [.handler "GET" "/" (.component fc1) ⟨0⟩
              ⟨⟨0⟩, none, "index.tsx"⟩ 200] none,
          .mount "/b"
            [.handler "GET" "/" (.component fc2) ⟨1⟩
              ⟨⟨1⟩, none, "index.tsx"⟩ 200] none], none, none⟩ := rfl
  refine ⟨by rw [happ], ?_, ?_⟩
  · rw [happ]
    unfold dispatchApp
    simp only [runMounts, runEntries]
    rw [show mountStrip "/a" "/a" = some "/" from rfl]
    cases hfc : fc1 ⟨"GET", "/", q⟩ ⟨0⟩ with
    | ok v => simp [runAction, pathMatches, hfc, Except.map]
    | error e => simp [runAction, pathMatches, hfc, Except.map]
  · rw [happ]
    unfold dispatchApp
    simp only [runMounts, runEntries]
    rw [show mountStrip "/a" "/b" = none from rfl,
      show mountStrip "/b" "/b" = some "/" from rfl]
    cases hfc : fc2 ⟨"GET", "/", q⟩ ⟨1⟩ with
    | ok v => simp [runAction, pathMatches, hfc, Except.map]
    | error e => simp [runAction, pathMatches, hfc, Except.map]

/-- The negation of claim C3, observed at concrete inputs: directory `a` holds
two route files and both preserved files.  In the fully built sub-router (the
last snapshot mounted on the parent), the registration order is component,
not-found catch-all, component, not-found catch-all: the second route file's
component handler (position 2) is registered after a preserved catch-all
(position 1), because preserved installation runs once per route file, not
after all route handlers of the directory.  Consequently a GET request for the
second file's path is answered by the earlier catch-all at status 404. -/
theorem c3_preserved_order_counterexample :
    ((lastMountEntries (createApp (cfgTwoFiles renderDemo
          (fun _ _ => .ok (.content (.text "A")))
          (fun _ _ => .ok (.content (.text "B")))
          (fun _ _ => .content (.text "N"))
          (fun _ _ _ => .content (.text "E"))))).map InstEntry.kindOf)
        = [.componentK, .notFoundK, .componentK, .notFoundK]
      ∧ dispatchApp ⟨[], "/app/routes", renderDemo⟩
          (createApp (cfgTwoFiles renderDemo
            (fun _ _ => .ok (.content (.text "A")))
            (fun _ _ => .ok (.content (.text "B")))
            (fun _ _ => .content (.text "N"))
            (fun _ _ _ => .content (.text "E"))))
          ⟨"GET", "/a/b.tsx", ""⟩
          = ⟨"N", 404, [("Content-Type", "text/html; charset=utf-8")]⟩ :=
  ⟨rfl, rfl⟩

/-- Claim C3 as amended: preserved files are installed once per route-file
iteration, after the handlers of the route file being processed — within one
iteration the sub-router grows by exactly that file's route registrations
followed by the preserved registrations (every preserved registration being
the not-found catch-all), so the original per-directory ordering holds for
directories with a single route file but not in general. -/
theorem c3_preserved_after_file_handlers (env : Env)
    (pm : List (String × PreservedDir)) (ch : Option (Nat → Head × Nat))
    (fpp : String → String) (dir rootPath : String)
    (ly : Option (List String)) (st : InstallState) (fn : String)
    (callable : Option FC) (entries : List (String × Option RDEntry)) :
    (stepFile env pm ch fpp dir rootPath ly st
        (fn, some ⟨none, callable, entries⟩)).subEntries
        = st.subEntries
          ++ routeEntriesFor env (fpp fn) (allocHead ch st.next).1
               ⟨(allocHead ch st.next).1, ly, fn⟩ ⟨none, callable, entries⟩
          ++ (preservedInstall pm dir env.root (allocHead ch st.next).1
               ⟨(allocHead ch st.next).1, ly, fn⟩).1
      ∧ ∀ e ∈ (preservedInstall pm dir env.root (allocHead ch st.next).1
                ⟨(allocHead ch st.next).1, ly, fn⟩).1,
          e.kindOf = .notFoundK := by
  constructor
  · rfl
  · intro e he
    unfold preservedInstall at he
    cases hpl : pm.lookup dir with
    | none => simp [hpl] at he
    | some content =>
      simp only [hpl] at he
      by_cases hd : dir ≠ env.root
      · rw [if_pos hd] at he
        cases hnf : content.notFound with
        | none => simp [hnf] at he
        | some nf =>
          rw [hnf] at he
          simp only [List.mem_singleton] at he
          rw [he]
          rfl
      · rw [if_neg hd] at he
        simp at he

/-- Witness for the amended C3 at a concrete single-file iteration. -/
theorem c3_preserved_after_file_handlers_witness :
    (stepFile ⟨[], "/app/routes", renderDemo⟩
        [("/app/routes/a", ⟨some (fun _ _ => .content (.text "N")), none⟩)]
        none fppIndex "/app/routes/a" "/a" none ⟨[], none, [], 0⟩
        ("index.tsx",
         some ⟨none, some (fun _ _ => .ok (.content (.text "A"))), []⟩)).subEntries
      = [.handler "GET" "/"
           (.component (fun _ _ => .ok (.content (.text "A")))) ⟨0⟩
           ⟨⟨0⟩, none, "index.tsx"⟩ 200,
         .handler "GET" "*"
           (.catchAllNotFound (fun _ _ => .content (.text "N"))) ⟨0⟩
           ⟨⟨0⟩, none, "index.tsx"⟩ 404] := by
  have h :=
    (c3_preserved_after_file_handlers ⟨[], "/app/routes", renderDemo⟩
      [("/app/routes/a", ⟨some (fun _ _ => .content (.text "N")), none⟩)]
      none fppIndex "/app/routes/a" "/a" none ⟨[], none, [], 0⟩ "index.tsx"
      (some (fun _ _ => .ok (.content (.text "A")))) []).1
  rw [h]
  rfl

end Sonik
